import Mathlib

set_option autoImplicit false

namespace Chess

/-- A logical board coordinate (`type Coordinate = { file: string; rank: number }`).
Files are the one-letter strings "a".."h"; ranks are the integers 1..8. -/
structure Coordinate where
  file : String
  rank : Int
deriving DecidableEq, Repr

/-- A chess piece as the `chess` rules engine reports it (`type Piece`).
The visual actor handle is modelled by its id (`actor.id`), the only part of
the handle the app's logic ever compares.  The engine's `notation` field is a
display string never read by the app and is omitted. -/
structure Piece where
  moveCount : Nat
  side : String
  ptype : String
  actorId : Nat
deriving DecidableEq, Repr

/-- The actor bound to a board square (`type SquareActor = Actor & Coordinate`):
an entity handle tagged with the square's file and rank during setup. -/
structure SquareActor where
  file : String
  rank : Int
deriving DecidableEq, Repr

/-- A board square (`type Square = Coordinate & { actor; piece; marker }`).
The move-marker actor owned by the square is addressed by the square's
coordinates in the effect trace, so it carries no separate id here. -/
structure Square where
  file : String
  rank : Int
  piece : Option Piece
  actor : SquareActor
deriving DecidableEq, Repr

/-- `type Board = { squares: Square[] }`. -/
structure Board where
  squares : List Square
deriving DecidableEq, Repr

/-- `type ValidMove = { src: Square; squares: Square[] }`: one entry per piece
that has at least one legal move, produced by the rules engine. -/
structure ValidMove where
  src : Square
  squares : List Square
deriving DecidableEq, Repr

/-- `type Status`: the snapshot the rules engine returns from `getStatus()`. -/
structure Status where
  board : Board
  isCheck : Bool
  isCheckmate : Bool
  isRepetition : Bool
  isStalemate : Bool
  validMoves : List ValidMove
deriving DecidableEq, Repr

/-- An occupied square as produced by `readOccupiedBoard`: the source copies
`file`, `rank` and the (present) `piece` of every square that has one. -/
structure OccSquare where
  file : String
  rank : Int
  piece : Piece
deriving DecidableEq, Repr

/-- `readOccupiedBoard(status)`: the sparse projection of the board containing
only squares with a piece (`if (square.piece) board.squares.push({...})`). -/
def readOccupiedBoard (status : Status) : List OccSquare :=
  status.board.squares.filterMap fun sq => sq.piece.map fun p => ⟨sq.file, sq.rank, p⟩

/-- One entry of the differ's output (`type Change = { actor; oldSquare; newSquare }`);
`newSquare = none` marks a capture. -/
structure Change where
  actorId : Nat
  oldSquare : OccSquare
  newSquare : Option OccSquare
deriving DecidableEq, Repr

/-- JS object assignment `obj[key] = value` on a string-keyed object: replace
the value in place if the key exists, otherwise append the new key. -/
def upsert (m : List (Nat × OccSquare)) (k : Nat) (v : OccSquare) :
    List (Nat × OccSquare) :=
  if m.any fun p => p.1 == k then
    m.map fun p => if p.1 == k then (k, v) else p
  else m ++ [(k, v)]

/-- `board.squares.forEach(square => squares[square.piece.actor.id] = square)`:
index an occupied board by the stable per-piece actor id. -/
def buildIndex (squares : List OccSquare) : List (Nat × OccSquare) :=
  squares.foldl (fun m sq => upsert m sq.piece.actorId sq) []

/-- JS object read `obj[key]`, `undefined` when absent. -/
def lookupIdx (m : List (Nat × OccSquare)) (k : Nat) : Option OccSquare :=
  (m.find? fun p => p.1 == k).map Prod.snd

/-- The per-piece lookup the differ performs against the *after* snapshot:
`newSquares[key]` where `newSquares` is the id-indexed after board. -/
def boardLookup (b : List OccSquare) (k : Nat) : Option OccSquare :=
  lookupIdx (buildIndex b) k

/-- The loop body of `animateActorMovements` in the click variants: a piece
present in both snapshots yields a movement only when its coordinate changed
(`if (newSquare.rank !== oldSquare.rank || newSquare.file !== oldSquare.file)`);
a piece absent from the after snapshot yields a capture. -/
def diffStep (newSquares : List (Nat × OccSquare))
    (acc : List Change × List Change) (kv : Nat × OccSquare) :
    List Change × List Change :=
  match lookupIdx newSquares kv.1 with
  | some newSquare =>
    if newSquare.rank != kv.2.rank || newSquare.file != kv.2.file then
      (acc.1 ++ [⟨kv.1, kv.2, some newSquare⟩], acc.2)
    else acc
  | none => (acc.1, acc.2 ++ [⟨kv.1, kv.2, none⟩])

/-- The snapshot differ `animateActorMovements(oldBoard, newBoard)` of the
click variants: index both snapshots by piece actor id, then walk the keys of
the old index accumulating movements and captures. -/
def animateActorMovements (oldBoard newBoard : List OccSquare) :
    List Change × List Change :=
  (buildIndex oldBoard).foldl (diffStep (buildIndex newBoard)) ([], [])

/-- The movement the differ emits for one old-index entry, if any. -/
def movementOf (newSquares : List (Nat × OccSquare)) (kv : Nat × OccSquare) :
    Option Change :=
  match lookupIdx newSquares kv.1 with
  | some ns =>
    if ns.rank != kv.2.rank || ns.file != kv.2.file then
      some ⟨kv.1, kv.2, some ns⟩
    else none
  | none => none

/-- The capture the differ emits for one old-index entry, if any. -/
def captureOf (newSquares : List (Nat × OccSquare)) (kv : Nat × OccSquare) :
    Option Change :=
  match lookupIdx newSquares kv.1 with
  | some _ => none
  | none => some ⟨kv.1, kv.2, none⟩

namespace Drag

/-- The loop body of `animateActorMovements` in the drag variant: a piece
present in both snapshots is pushed as a movement unconditionally — there is
no coordinate-change guard, so every surviving piece is re-seated. -/
def diffStep (newSquares : List (Nat × OccSquare))
    (acc : List Change × List Change) (kv : Nat × OccSquare) :
    List Change × List Change :=
  match lookupIdx newSquares kv.1 with
  | some newSquare => (acc.1 ++ [⟨kv.1, kv.2, some newSquare⟩], acc.2)
  | none => (acc.1, acc.2 ++ [⟨kv.1, kv.2, none⟩])

/-- The snapshot differ of the drag variant. -/
def animateActorMovements (oldBoard newBoard : List OccSquare) :
    List Change × List Change :=
  (buildIndex oldBoard).foldl (diffStep (buildIndex newBoard)) ([], [])

/-- The movement the drag differ emits for one old-index entry, if any. -/
def movementOf (newSquares : List (Nat × OccSquare)) (kv : Nat × OccSquare) :
    Option Change :=
  match lookupIdx newSquares kv.1 with
  | some ns => some ⟨kv.1, kv.2, some ns⟩
  | none => none

end Drag

/-- The observable calls the handlers make into the host platform and the
rules engine, recorded in program order. -/
inductive Effect where
  /-- `hideMoveMarkers()`: every square's move marker raised out of sight. -/
  | hideMoveMarkers
  /-- `hideCheckMarker()`. -/
  | hideCheckMarker
  /-- `hideSelectedMarker()`. -/
  | hideSelectedMarker
  /-- The selected marker placed over the given square. -/
  | showSelectedMarkerAt (file : String) (rank : Int)
  /-- `showValidMoves`: one square's move marker lowered into view. -/
  | showMarkerAt (file : String) (rank : Int)
  /-- `this.game.move(src, dst)`: the call into the rules engine. -/
  | gameMove (src dst : Coordinate)
  /-- `this.game.getStatus()` after a move: the status refetch. -/
  | refetchStatus
  /-- `animateMovement`: glide the piece actor to its destination square. -/
  | animateMovement (actorId : Nat) (dst : Coordinate)
  /-- `actor.animateTo({ scale })`: hover grow (`true`) or reset (`false`). -/
  | scaleTo (actorId : Nat) (hover : Bool)
  /-- `actor.setAnimationState('hover', { enabled: false })`. -/
  | stopHoverAnim (actorId : Nat)
  /-- `animateCapture`: shrink the captured actor to zero height over the
  given animation duration. -/
  | scaleToZero (actorId : Nat) (durationMs : Nat)
  /-- `await delay(ms)`. -/
  | delayMs (ms : Nat)
  /-- `actor.destroy()`. -/
  | destroyActor (actorId : Nat)
  /-- `this.selectedActor = null`. -/
  | clearSelection
deriving DecidableEq, Repr

/-- The rules-engine facade: the current `Status` plus the engine's `move`,
which either returns the post-move status or throws (`Except.error`).  The
`MoveResult` the real `move` returns is bound to an unused local, so only the
status transition is modelled. -/
structure Game where
  status : Status
  moveFn : Coordinate → Coordinate → Except String Status

/-- The mutable fields of the `ChessGame` class the handlers read and write:
the game facade and the `selectedActor` field (by actor id, `null = none`). -/
structure AppState where
  game : Game
  selectedActor : Option Nat

/-- The outcome of running one event handler: the updated state, the effect
trace in program order, and the exception that escaped, if any. -/
structure HandlerResult where
  state : AppState
  trace : List Effect
  thrown : Option String

namespace App

/-- `item.src.piece.actor.id` for a `validMoves` entry.  The engine always
populates `src.piece`; a missing piece makes the JS comparison throw, modelled
here as `none` (which can never equal `some id`). -/
def srcPieceActorId (mv : ValidMove) : Option Nat :=
  mv.src.piece.map fun p => p.actorId

/-- `validMovesForActor(actor)`:
`status.validMoves.filter(item => item.src.piece.actor.id === actor.id).shift()`. -/
def validMovesForActor (s : AppState) (actor : Option Nat) : Option ValidMove :=
  match actor with
  | none => none
  | some aid =>
    s.game.status.validMoves.find? fun item => srcPieceActorId item == some aid

/-- `squareForActor(actor)`:
`status.board.squares.filter(item => item.piece && item.piece.actor.id === actor.id).shift()`. -/
def squareForActor (s : AppState) (actorId : Nat) : Option Square :=
  s.game.status.board.squares.find? fun item =>
    match item.piece with
    | some p => p.actorId == actorId
    | none => false

/-- `showValidMoves(moveSets)`: lower the move marker of every destination
square of every non-null move set. -/
def showValidMoves (moveSets : List (Option ValidMove)) : List Effect :=
  moveSets.flatMap fun m =>
    match m with
    | some moveSet => moveSet.squares.map fun sq => Effect.showMarkerAt sq.file sq.rank
    | none => []

/-- `showMoveMarkers(actor)`: hide all markers, then show the move sets of the
hovered actor and of the selected actor. -/
def showMoveMarkers (s : AppState) (actor : Option Nat) : List Effect :=
  Effect.hideMoveMarkers ::
    showValidMoves [validMovesForActor s actor, validMovesForActor s s.selectedActor]

/-- `showSelectedMarker()`: hide the selected marker, then place it over the
selected piece's square.  When the selected actor is on no square the JS
`coordinate(undefined)` would throw before any placement; no placement is
recorded here. -/
def showSelectedMarker (s : AppState) : List Effect :=
  Effect.hideSelectedMarker ::
    (match s.selectedActor with
     | some selId =>
       match squareForActor s selId with
       | some square => [Effect.showSelectedMarkerAt square.file square.rank]
       | none => []
     | none => [])

/-- `deselectPiece()`: stop the hover animation, reset the scale, hide the
selected marker and all move markers, and clear `selectedActor`.  Called with
no selection, the JS `this.selectedActor.setAnimationState` throws. -/
def deselectPiece (s : AppState) : HandlerResult :=
  match s.selectedActor with
  | some selId =>
    { state := { s with selectedActor := none }
      trace := [Effect.stopHoverAnim selId, Effect.scaleTo selId false,
                Effect.hideSelectedMarker, Effect.hideMoveMarkers,
                Effect.clearSelection]
      thrown := none }
  | none => { state := s, trace := [], thrown := some "TypeError" }

/-- `animateMovement(actor, dst)`: glide to the destination square, then reset
the scale. -/
def animateMovement (actorId : Nat) (dst : OccSquare) : List Effect :=
  [Effect.animateMovement actorId ⟨dst.file, dst.rank⟩,
   Effect.scaleTo actorId false]

/-- `animateCapture(actor)`: shrink out over 1.0 s, `await delay(1000)`, then
destroy the actor. -/
def animateCapture (actorId : Nat) : List Effect :=
  [Effect.scaleToZero actorId 1000, Effect.delayMs 1000,
   Effect.destroyActor actorId]

/-- The dispatch loops at the end of `animateActorMovements`: all movement
animations, then all capture animations. -/
def dispatchAnimations (changes : List Change × List Change) : List Effect :=
  (changes.1.flatMap fun c =>
    match c.newSquare with
    | some ns => animateMovement c.actorId ns
    | none => []) ++
  changes.2.flatMap fun c => animateCapture c.actorId

/-- `clickOnSquare(userId, actor)` of the click variants: with a piece
selected, look up its `validMoves` entry in a freshly fetched status; if the
clicked square is among its destinations, hide the markers, invoke the move,
refetch the status, diff the occupied boards, dispatch the animations, and
clear the selection; otherwise deselect.  Without a selection the click does
nothing. -/
def clickOnSquare (s : AppState) (actor : SquareActor) : HandlerResult :=
  match s.selectedActor with
  | none => { state := s, trace := [], thrown := none }
  | some selId =>
    let status := s.game.status
    match status.validMoves.find? fun item => srcPieceActorId item == some selId with
    | none => deselectPiece s
    | some move =>
      match move.squares.find? fun item =>
          item.file == actor.file && item.rank == actor.rank with
      | none => deselectPiece s
      | some destSquare =>
        let srcCoord : Coordinate := ⟨move.src.file, move.src.rank⟩
        let dstCoord : Coordinate := ⟨destSquare.file, destSquare.rank⟩
        let prevBoard := readOccupiedBoard status
        match s.game.moveFn srcCoord dstCoord with
        | Except.error e =>
          { state := s
            trace := [Effect.hideMoveMarkers, Effect.hideCheckMarker,
                      Effect.gameMove srcCoord dstCoord]
            thrown := some e }
        | Except.ok newStatus =>
          { state := { game := { status := newStatus, moveFn := s.game.moveFn }
                       selectedActor := none }
            trace := [Effect.hideMoveMarkers, Effect.hideCheckMarker,
                      Effect.gameMove srcCoord dstCoord, Effect.refetchStatus]
                     ++ dispatchAnimations
                          (animateActorMovements prevBoard (readOccupiedBoard newStatus))
                     ++ [Effect.hideSelectedMarker, Effect.clearSelection]
            thrown := none }

/-- `isValidTarget(sourceActor, targetActor)`: true when the target actor's
square is among the destinations of the selected actor's `validMoves` entry. -/
def isValidTarget (s : AppState) (sourceActor : Option Nat) (targetActor : Nat) : Bool :=
  match sourceActor with
  | none => false
  | some _ =>
    match squareForActor s targetActor, validMovesForActor s s.selectedActor with
    | some targetSquare, some validMove =>
      validMove.squares.any fun square =>
        square.file == targetSquare.file && square.rank == targetSquare.rank
    | _, _ => false

/-- `clickOnPiece(userId, actor)` of the first click variant: re-clicking the
selected piece deselects it; a click on a valid target is piped to
`clickOnSquare` with the target's square actor; otherwise the clicked piece
becomes the new selection. -/
def clickOnPiece (s : AppState) (actorId : Nat) : HandlerResult :=
  if s.selectedActor == some actorId then
    deselectPiece s
  else if isValidTarget s s.selectedActor actorId then
    match squareForActor s actorId with
    | some square => clickOnSquare s square.actor
    | none => { state := s, trace := [], thrown := some "TypeError" }
  else
    let pre : List Effect :=
      match s.selectedActor with
      | some selId => [Effect.scaleTo selId false]
      | none => []
    let s2 : AppState := { s with selectedActor := some actorId }
    { state := s2
      trace := pre ++ [Effect.scaleTo actorId true]
               ++ showSelectedMarker s2 ++ showMoveMarkers s2 (some actorId)
      thrown := none }

/-- `startHoverPiece(userId, actor)`: grow the hovered piece unless it is the
selection, then show its move markers. -/
def startHoverPiece (s : AppState) (actorId : Nat) : HandlerResult :=
  let pre : List Effect :=
    if s.selectedActor == some actorId then [] else [Effect.scaleTo actorId true]
  { state := s, trace := pre ++ showMoveMarkers s (some actorId), thrown := none }

/-- `stopHoverPiece(userId, actor)`: reset the hovered piece's scale unless it
is the selection, then show the markers for a null hover target. -/
def stopHoverPiece (s : AppState) (actorId : Nat) : HandlerResult :=
  let pre : List Effect :=
    if s.selectedActor == some actorId then [] else [Effect.scaleTo actorId false]
  { state := s, trace := pre ++ showMoveMarkers s none, thrown := none }

end App

namespace AppB

/-- `squareForActor(actor)` of the second click variant, which compares each
square's piece against `this.selectedActor.id` instead of `actor.id`: it
returns the *selected* actor's square whatever the argument. -/
def squareForActor (s : AppState) (_actorId : Nat) : Option Square :=
  match s.selectedActor with
  | some selId =>
    s.game.status.board.squares.find? fun item =>
      match item.piece with
      | some p => p.actorId == selId
      | none => false
  | none => none

/-- `validMovesForActor(actor)` of the second click variant: an entry matches
when its source piece is the argument actor or the selected actor. -/
def validMovesForActor (s : AppState) (actor : Option Nat) : Option ValidMove :=
  match actor with
  | none => none
  | some aid =>
    s.game.status.validMoves.find? fun item =>
      App.srcPieceActorId item == some aid ||
        (match s.selectedActor with
         | some selId => App.srcPieceActorId item == some selId
         | none => false)

/-- `isValidTarget(sourceActor, targetActor)` of the second click variant,
built on this variant's `squareForActor`. -/
def isValidTarget (s : AppState) (sourceActor : Option Nat) (targetActor : Nat) : Bool :=
  match sourceActor with
  | none => false
  | some _ =>
    match squareForActor s targetActor with
    | none => false
    | some targetSquare =>
      match validMovesForActor s s.selectedActor with
      | none => false
      | some validMove =>
        validMove.squares.any fun square =>
          square.file == targetSquare.file && square.rank == targetSquare.rank

/-- `showSelectedMarker()` of the second click variant. -/
def showSelectedMarker (s : AppState) : List Effect :=
  Effect.hideSelectedMarker ::
    (match s.selectedActor with
     | some selId =>
       match squareForActor s selId with
       | some square => [Effect.showSelectedMarkerAt square.file square.rank]
       | none => []
     | none => [])

/-- `showMoveMarkers(actor)` of the second click variant. -/
def showMoveMarkers (s : AppState) (actor : Option Nat) : List Effect :=
  Effect.hideMoveMarkers ::
    App.showValidMoves [validMovesForActor s actor, validMovesForActor s s.selectedActor]

/-- `deselectPiece()` of the second click variant (no scale-reset tween, only
the hover animation state is disabled). -/
def deselectPiece (s : AppState) : HandlerResult :=
  match s.selectedActor with
  | some selId =>
    { state := { s with selectedActor := none }
      trace := [Effect.stopHoverAnim selId, Effect.hideSelectedMarker,
                Effect.hideMoveMarkers, Effect.clearSelection]
      thrown := none }
  | none => { state := s, trace := [], thrown := some "TypeError" }

/-- `clickOnPiece(userId, actor)` of the second click variant: on a valid
target it plainly `return`s — no move is piped anywhere — and otherwise the
clicked piece becomes the new selection. -/
def clickOnPiece (s : AppState) (actorId : Nat) : HandlerResult :=
  if s.selectedActor == some actorId then
    deselectPiece s
  else if isValidTarget s s.selectedActor actorId then
    { state := s, trace := [], thrown := none }
  else
    let pre : List Effect :=
      match s.selectedActor with
      | some selId => [Effect.stopHoverAnim selId]
      | none => []
    let s2 : AppState := { s with selectedActor := some actorId }
    { state := s2
      trace := pre ++ [Effect.stopHoverAnim actorId]
               ++ showSelectedMarker s2 ++ showMoveMarkers s2 (some actorId)
      thrown := none }

end AppB

namespace Drag

/-- `validMovesForActor(actor)` of the drag variant. -/
def validMovesForActor (st : Status) (actor : Option Nat) : Option ValidMove :=
  match actor with
  | none => none
  | some aid =>
    st.validMoves.find? fun item => App.srcPieceActorId item == some aid

/-- `showMoveMarkers(actor)` of the drag variant (no selection exists there:
only the hovered actor's move set is shown). -/
def showMoveMarkers (st : Status) (actor : Option Nat) : List Effect :=
  Effect.hideMoveMarkers :: App.showValidMoves [validMovesForActor st actor]

/-- `startHoverPiece(userId, actor)` of the drag variant: show the hovered
piece's move markers; the game state is never touched. -/
def startHoverPiece (st : Status) (actorId : Nat) : Status × List Effect :=
  (st, showMoveMarkers st (some actorId))

/-- `stopHoverPiece(userId, actor)` of the drag variant. -/
def stopHoverPiece (st : Status) (_actorId : Nat) : Status × List Effect :=
  (st, showMoveMarkers st none)

end Drag

/-- The spec's legality-gating predicate, written from the spec's words: the
clicked destination appears in the `ValidMove` entry of the currently selected
piece in the status fetched immediately before the move.  Used to compare the
handler against the spec; the handler itself is `App.clickOnSquare`. -/
def legalDestinationSpec (s : AppState) (actor : SquareActor) : Bool :=
  match s.selectedActor with
  | none => false
  | some selId =>
    match s.game.status.validMoves.find? fun item =>
        App.srcPieceActorId item == some selId with
    | none => false
    | some move =>
      move.squares.any fun item => item.file == actor.file && item.rank == actor.rank

/-- Effects that call into the rules engine. -/
def isGameMoveEffect : Effect → Bool
  | Effect.gameMove _ _ => true
  | _ => false

/-- Effects that touch the canonical game state or dispatch a move/capture
animation: the engine call, the status refetch, and the differ-driven
animations of `animateMovement`/`animateCapture`. -/
def moveOrAnimEffect : Effect → Bool
  | Effect.gameMove _ _ => true
  | Effect.refetchStatus => true
  | Effect.animateMovement _ _ => true
  | Effect.scaleToZero _ _ => true
  | Effect.delayMs _ => true
  | Effect.destroyActor _ => true
  | _ => false

/-- Effects a hover may produce: marker vertical-position changes and the
hovered piece's scale/hover animations.  Everything else (engine calls,
status refetches, move/capture animations, selection changes) is excluded. -/
def passiveEffect : Effect → Bool
  | Effect.hideMoveMarkers => true
  | Effect.showMarkerAt _ _ => true
  | Effect.scaleTo _ _ => true
  | Effect.stopHoverAnim _ => true
  | _ => false

namespace Fix

/-- White pawn bound to actor 1. -/
def wPawn : Piece := ⟨0, "white", "pawn", 1⟩

/-- Black pawn bound to actor 2. -/
def bPawn : Piece := ⟨0, "black", "pawn", 2⟩

/-- A square whose actor carries the square's own coordinates, as
`createChessboard` sets it up. -/
def mkSq (f : String) (r : Int) (p : Option Piece) : Square :=
  ⟨f, r, p, ⟨f, r⟩⟩

/-- Movement scenario, before: white pawn on e2, black pawn on e7; the white
pawn may move to e4. -/
def statusMove0 : Status :=
  ⟨⟨[mkSq "e" 2 (some wPawn), mkSq "e" 4 none, mkSq "e" 7 (some bPawn)]⟩,
   false, false, false, false,
   [⟨mkSq "e" 2 (some wPawn), [mkSq "e" 4 none]⟩]⟩

/-- Movement scenario, after e2→e4. -/
def statusMove1 : Status :=
  ⟨⟨[mkSq "e" 2 none, mkSq "e" 4 (some wPawn), mkSq "e" 7 (some bPawn)]⟩,
   false, false, false, false, []⟩

/-- Movement scenario state: white pawn selected, engine accepts the move. -/
def stMove : AppState :=
  ⟨⟨statusMove0, fun _ _ => Except.ok statusMove1⟩, some 1⟩

/-- The square actor of e4. -/
def sqE4Actor : SquareActor := ⟨"e", 4⟩

/-- Capture scenario, before: white pawn on e2 may capture the black pawn on
d3. -/
def statusCap0 : Status :=
  ⟨⟨[mkSq "e" 2 (some wPawn), mkSq "d" 3 (some bPawn)]⟩,
   false, false, false, false,
   [⟨mkSq "e" 2 (some wPawn), [mkSq "d" 3 (some bPawn)]⟩]⟩

/-- Capture scenario, after e2xd3: the black pawn is gone. -/
def statusCap1 : Status :=
  ⟨⟨[mkSq "e" 2 none, mkSq "d" 3 (some wPawn)]⟩,
   false, false, false, false, []⟩

/-- Capture scenario state: white pawn selected, engine accepts the capture. -/
def stCap : AppState :=
  ⟨⟨statusCap0, fun _ _ => Except.ok statusCap1⟩, some 1⟩

/-- The square actor of d3. -/
def sqD3Actor : SquareActor := ⟨"d", 3⟩

/-- Faulting-engine scenario: the movement position, but `move` throws. -/
def stFault : AppState :=
  ⟨⟨statusMove0, fun _ _ => Except.error "engine fault"⟩, some 1⟩

/-- Idle scenario: nothing selected; the black pawn (actor 2) has no
`validMoves` entry (it is white's turn). -/
def stIdle : AppState :=
  ⟨⟨statusMove0, fun _ _ => Except.ok statusMove1⟩, none⟩

/-- Occupied squares for the differ scenarios. -/
def occE2 : OccSquare := ⟨"e", 2, wPawn⟩

/-- White pawn's occupied square after moving to e4. -/
def occE4 : OccSquare := ⟨"e", 4, wPawn⟩

/-- Black pawn's occupied square on e7. -/
def occE7 : OccSquare := ⟨"e", 7, bPawn⟩

/-- One-piece snapshot for the self-diff counterexample. -/
def selfBoard : List OccSquare := [occE2]

/-- Before snapshot for the single-movement differ scenario. -/
def beforeBoard : List OccSquare := [occE2, occE7]

/-- After snapshot: the white pawn moved e2→e4, the black pawn unchanged. -/
def afterMoveBoard : List OccSquare := [occE4, occE7]

end Fix

end Chess

namespace Chess

theorem foldl_diffStep (newIdx : List (Nat × OccSquare))
    (l : List (Nat × OccSquare)) (acc : List Change × List Change) :
    l.foldl (diffStep newIdx) acc =
      (acc.1 ++ l.filterMap (movementOf newIdx),
       acc.2 ++ l.filterMap (captureOf newIdx)) := by
  induction l generalizing acc with
  | nil => simp
  | cons kv t ih =>
    simp only [List.foldl_cons, List.filterMap_cons]
    rw [ih]
    unfold diffStep movementOf captureOf
    cases h : lookupIdx newIdx kv.1 with
    | none => simp
    | some ns =>
      by_cases hc : (ns.rank != kv.2.rank || ns.file != kv.2.file) = true
      · simp [hc]
      · simp [hc]

theorem animateActorMovements_eq (oldB newB : List OccSquare) :
    animateActorMovements oldB newB =
      ((buildIndex oldB).filterMap (movementOf (buildIndex newB)),
       (buildIndex oldB).filterMap (captureOf (buildIndex newB))) := by
  unfold animateActorMovements
  rw [foldl_diffStep]
  simp

theorem drag_foldl_diffStep (newIdx : List (Nat × OccSquare))
    (l : List (Nat × OccSquare)) (acc : List Change × List Change) :
    l.foldl (Drag.diffStep newIdx) acc =
      (acc.1 ++ l.filterMap (Drag.movementOf newIdx),
       acc.2 ++ l.filterMap (captureOf newIdx)) := by
  induction l generalizing acc with
  | nil => simp
  | cons kv t ih =>
    simp only [List.foldl_cons, List.filterMap_cons]
    rw [ih]
    unfold Drag.diffStep Drag.movementOf captureOf
    cases h : lookupIdx newIdx kv.1 with
    | none => simp
    | some ns => simp

theorem drag_animateActorMovements_eq (oldB newB : List OccSquare) :
    Drag.animateActorMovements oldB newB =
      ((buildIndex oldB).filterMap (Drag.movementOf (buildIndex newB)),
       (buildIndex oldB).filterMap (captureOf (buildIndex newB))) := by
  unfold Drag.animateActorMovements
  rw [drag_foldl_diffStep]
  simp

theorem upsert_of_no_key (m : List (Nat × OccSquare)) (k : Nat) (v : OccSquare)
    (h : ∀ p ∈ m, p.1 ≠ k) : upsert m k v = m ++ [(k, v)] := by
  unfold upsert
  have hany : (m.any fun p => p.1 == k) = false := by
    rw [List.any_eq_false]
    intro p hp
    simpa using h p hp
  simp [hany]

theorem buildIndex_go_eq_map (l : List OccSquare) :
    ∀ m : List (Nat × OccSquare),
      (l.map fun sq => sq.piece.actorId).Nodup →
      (∀ sq ∈ l, ∀ p ∈ m, p.1 ≠ sq.piece.actorId) →
      l.foldl (fun m sq => upsert m sq.piece.actorId sq) m
        = m ++ l.map fun sq => (sq.piece.actorId, sq) := by
  induction l with
  | nil => intro m _ _; simp
  | cons sq t ih =>
    intro m hnd hdisj
    simp only [List.foldl_cons]
    rw [upsert_of_no_key m sq.piece.actorId sq
      (fun p hp => hdisj sq (by simp) p hp)]
    rw [List.map_cons, List.nodup_cons] at hnd
    rw [ih (m ++ [(sq.piece.actorId, sq)]) hnd.2 ?_]
    · simp
    · intro sq2 hsq2 p hp
      rcases List.mem_append.mp hp with hp1 | hp2
      · exact hdisj sq2 (List.mem_cons_of_mem _ hsq2) p hp1
      · have hps : p = (sq.piece.actorId, sq) := by simpa using hp2
        subst hps
        intro hcontra
        apply hnd.1
        have hids : sq.piece.actorId = sq2.piece.actorId := hcontra
        rw [hids]
        exact List.mem_map_of_mem _ hsq2

theorem buildIndex_eq_map (l : List OccSquare)
    (h : (l.map fun sq => sq.piece.actorId).Nodup) :
    buildIndex l = l.map fun sq => (sq.piece.actorId, sq) := by
  unfold buildIndex
  simpa using buildIndex_go_eq_map l [] h (by simp)

theorem keys_upsert (m : List (Nat × OccSquare)) (k : Nat) (v : OccSquare) :
    (upsert m k v).map Prod.fst =
      if (m.any fun p => p.1 == k) = true then m.map Prod.fst
      else m.map Prod.fst ++ [k] := by
  unfold upsert
  by_cases h : (m.any fun p => p.1 == k) = true
  · simp only [h, if_true, List.map_map]
    apply List.map_congr_left
    intro p _
    by_cases hpk : p.1 = k
    · simp [hpk]
    · simp [hpk]
  · simp [h]

theorem buildIndex_go_keys_nodup (l : List OccSquare) :
    ∀ m : List (Nat × OccSquare), (m.map Prod.fst).Nodup →
      ((l.foldl (fun m sq => upsert m sq.piece.actorId sq) m).map Prod.fst).Nodup := by
  induction l with
  | nil => intro m h; simpa
  | cons sq t ih =>
    intro m h
    simp only [List.foldl_cons]
    apply ih
    rw [keys_upsert]
    by_cases hc : (m.any fun p => p.1 == sq.piece.actorId) = true
    · simpa [hc] using h
    · rw [if_neg hc]
      rw [List.nodup_append]
      refine ⟨h, List.nodup_singleton _, ?_⟩
      intro a ha hamem
      have ha2 : a = sq.piece.actorId := by simpa using hamem
      subst ha2
      rw [Bool.not_eq_true, List.any_eq_false] at hc
      rcases List.mem_map.mp ha with ⟨p, hp, hpe⟩
      exact hc p hp (by simpa using hpe)

theorem buildIndex_keys_nodup (l : List OccSquare) :
    ((buildIndex l).map Prod.fst).Nodup := by
  unfold buildIndex
  exact buildIndex_go_keys_nodup l [] (by simp)

theorem lookupIdx_of_mem (m : List (Nat × OccSquare)) (kv : Nat × OccSquare)
    (hm : kv ∈ m) (hnd : (m.map Prod.fst).Nodup) :
    lookupIdx m kv.1 = some kv.2 := by
  induction m with
  | nil => cases hm
  | cons p t ih =>
    rw [List.map_cons, List.nodup_cons] at hnd
    rcases List.mem_cons.mp hm with heq | htail
    · subst heq
      unfold lookupIdx
      rw [List.find?_cons_of_pos _ (by simp)]
      rfl
    · have hne : p.1 ≠ kv.1 := by
        intro hcontra
        apply hnd.1
        rw [hcontra]
        exact List.mem_map_of_mem _ htail
      unfold lookupIdx
      rw [List.find?_cons_of_neg _ (by simp [hne])]
      exact ih htail hnd.2

theorem movementOf_pair_same (after : List OccSquare) (sq : OccSquare)
    (h : boardLookup after sq.piece.actorId = some sq) :
    movementOf (buildIndex after) (sq.piece.actorId, sq) = none := by
  unfold boardLookup at h
  unfold movementOf
  simp only []
  rw [h]
  simp

theorem captureOf_pair_found (after : List OccSquare) (sq sq2 : OccSquare)
    (h : boardLookup after sq.piece.actorId = some sq2) :
    captureOf (buildIndex after) (sq.piece.actorId, sq) = none := by
  unfold boardLookup at h
  unfold captureOf
  simp only []
  rw [h]

theorem movementOf_pair_absent (after : List OccSquare) (sq : OccSquare)
    (h : boardLookup after sq.piece.actorId = none) :
    movementOf (buildIndex after) (sq.piece.actorId, sq) = none := by
  unfold boardLookup at h
  unfold movementOf
  simp only []
  rw [h]

theorem captureOf_pair_absent (after : List OccSquare) (sq : OccSquare)
    (h : boardLookup after sq.piece.actorId = none) :
    captureOf (buildIndex after) (sq.piece.actorId, sq) =
      some ⟨sq.piece.actorId, sq, none⟩ := by
  unfold boardLookup at h
  unfold captureOf
  simp only []
  rw [h]

theorem filterMap_length_of_isSome {α β : Type} (f : α → Option β) :
    ∀ l : List α, (∀ a ∈ l, (f a).isSome) → (l.filterMap f).length = l.length := by
  intro l
  induction l with
  | nil => intro _; simp
  | cons a t ih =>
    intro h
    rw [List.filterMap_cons]
    cases hf : f a with
    | none =>
      have := h a (by simp)
      rw [hf] at this
      simp at this
    | some b => simp [ih fun x hx => h x (List.mem_cons_of_mem _ hx)]

/-- C2 (corrected, counterexample): in the drag variant's
`animateActorMovements`, diffing a one-piece snapshot against itself emits a
`Movement` whose destination equals its origin — the claim's "no Movement when
a piece's coordinate is unchanged" fails on this differ. -/
theorem C2_counterexample :
    (Drag.animateActorMovements Fix.selfBoard Fix.selfBoard).1 =
      [⟨1, Fix.occE2, some Fix.occE2⟩] ∧
    (Drag.animateActorMovements Fix.selfBoard Fix.selfBoard).1 ≠ [] := by
  constructor
  · rfl
  · decide

/-- C2 (corrected, amended): diffing a snapshot against itself yields no
actions in the click variants' differ; the drag variant's differ instead
yields one `Movement` (to the unchanged coordinate) per indexed piece and no
`Capture`s, re-seating every surviving piece. -/
theorem C2_noop_diff (b : List OccSquare) :
    animateActorMovements b b = ([], []) ∧
    (Drag.animateActorMovements b b).2 = [] ∧
    (Drag.animateActorMovements b b).1.length = (buildIndex b).length := by
  have hnd := buildIndex_keys_nodup b
  have hlk : ∀ kv ∈ buildIndex b, lookupIdx (buildIndex b) kv.1 = some kv.2 :=
    fun kv hkv => lookupIdx_of_mem _ kv hkv hnd
  have hmov : (buildIndex b).filterMap (movementOf (buildIndex b)) = [] := by
    rw [List.filterMap_eq_nil_iff]
    intro kv hkv
    unfold movementOf
    rw [hlk kv hkv]
    simp
  have hcap : (buildIndex b).filterMap (captureOf (buildIndex b)) = [] := by
    rw [List.filterMap_eq_nil_iff]
    intro kv hkv
    unfold captureOf
    rw [hlk kv hkv]
  refine ⟨?_, ?_, ?_⟩
  · rw [animateActorMovements_eq, hmov, hcap]
  · rw [drag_animateActorMovements_eq]
    exact hcap
  · rw [drag_animateActorMovements_eq]
    apply filterMap_length_of_isSome
    intro kv hkv
    unfold Drag.movementOf
    rw [hlk kv hkv]
    rfl

/-- C1: over snapshots with distinct piece actor ids, if every piece identity
of *before* other than `t` resolves in *after* to its unchanged square, then:
when `t` resolves to a square with a different coordinate the differ emits
exactly one `Movement` and zero `Capture`s, and when `t` is absent from
*after* it emits exactly one `Capture` and zero `Movement`s. -/
theorem C1_differ_single_change (before after : List OccSquare) (t : OccSquare)
    (hnodup : (before.map fun sq => sq.piece.actorId).Nodup)
    (ht : t ∈ before)
    (hothers : ∀ sq ∈ before, sq.piece.actorId ≠ t.piece.actorId →
      boardLookup after sq.piece.actorId = some sq) :
    (∀ t2, boardLookup after t.piece.actorId = some t2 →
      (t2.file ≠ t.file ∨ t2.rank ≠ t.rank) →
      (animateActorMovements before after).1.length = 1 ∧
      (animateActorMovements before after).2.length = 0) ∧
    (boardLookup after t.piece.actorId = none →
      (animateActorMovements before after).1.length = 0 ∧
      (animateActorMovements before after).2.length = 1) := by
  have hbi := buildIndex_eq_map before hnodup
  have hmov : (animateActorMovements before after).1
      = before.filterMap fun sq => movementOf (buildIndex after) (sq.piece.actorId, sq) := by
    rw [animateActorMovements_eq, hbi]
    rw [List.filterMap_map]
    rfl
  have hcap : (animateActorMovements before after).2
      = before.filterMap fun sq => captureOf (buildIndex after) (sq.piece.actorId, sq) := by
    rw [animateActorMovements_eq, hbi]
    rw [List.filterMap_map, List.filterMap_map]
    rfl
  obtain ⟨u, v, huv⟩ := List.append_of_mem ht
  have hids := hnodup
  rw [huv, List.map_append, List.map_cons, List.nodup_append] at hids
  have hid_u : ∀ sq ∈ u, sq.piece.actorId ≠ t.piece.actorId := by
    intro sq hsq heq
    have hdis := hids.2.2 (List.mem_map_of_mem (fun sq => sq.piece.actorId) hsq)
    apply hdis
    rw [heq]
    exact List.mem_cons_self _ _
  have hid_v : ∀ sq ∈ v, sq.piece.actorId ≠ t.piece.actorId := by
    intro sq hsq heq
    have hnc := List.nodup_cons.mp hids.2.1
    apply hnc.1
    rw [← heq]
    exact List.mem_map_of_mem (fun sq => sq.piece.actorId) hsq
  have hoth_u : ∀ sq ∈ u, boardLookup after sq.piece.actorId = some sq := by
    intro sq hsq
    exact hothers sq (by rw [huv]; exact List.mem_append_left _ hsq) (hid_u sq hsq)
  have hoth_v : ∀ sq ∈ v, boardLookup after sq.piece.actorId = some sq := by
    intro sq hsq
    refine hothers sq ?_ (hid_v sq hsq)
    rw [huv]
    exact List.mem_append_right _ (List.mem_cons_of_mem _ hsq)
  have hmov_u : (u.filterMap fun sq => movementOf (buildIndex after) (sq.piece.actorId, sq)) = [] :=
    List.filterMap_eq_nil_iff.mpr fun sq hsq => movementOf_pair_same after sq (hoth_u sq hsq)
  have hmov_v : (v.filterMap fun sq => movementOf (buildIndex after) (sq.piece.actorId, sq)) = [] :=
    List.filterMap_eq_nil_iff.mpr fun sq hsq => movementOf_pair_same after sq (hoth_v sq hsq)
  have hcap_u : (u.filterMap fun sq => captureOf (buildIndex after) (sq.piece.actorId, sq)) = [] :=
    List.filterMap_eq_nil_iff.mpr fun sq hsq => captureOf_pair_found after sq sq (hoth_u sq hsq)
  have hcap_v : (v.filterMap fun sq => captureOf (buildIndex after) (sq.piece.actorId, sq)) = [] :=
    List.filterMap_eq_nil_iff.mpr fun sq hsq => captureOf_pair_found after sq sq (hoth_v sq hsq)
  constructor
  · intro t2 hlook hne
    have hft : movementOf (buildIndex after) (t.piece.actorId, t)
        = some ⟨t.piece.actorId, t, some t2⟩ := by
      unfold boardLookup at hlook
      unfold movementOf
      simp only []
      rw [hlook]
      have hcond : (t2.rank != t.rank || t2.file != t.file) = true := by
        rcases hne with hf | hr
        · simp [hf]
        · simp [hr]
      simp [hcond]
    have hgt : captureOf (buildIndex after) (t.piece.actorId, t) = none :=
      captureOf_pair_found after t t2 hlook
    constructor
    · rw [hmov, huv, List.filterMap_append, List.filterMap_cons, hft, hmov_u, hmov_v]
      simp
    · rw [hcap, huv, List.filterMap_append, List.filterMap_cons, hgt, hcap_u, hcap_v]
      simp
  · intro hlook
    have hft : movementOf (buildIndex after) (t.piece.actorId, t) = none :=
      movementOf_pair_absent after t hlook
    have hgt : captureOf (buildIndex after) (t.piece.actorId, t)
        = some ⟨t.piece.actorId, t, none⟩ :=
      captureOf_pair_absent after t hlook
    constructor
    · rw [hmov, huv, List.filterMap_append, List.filterMap_cons, hft, hmov_u, hmov_v]
      simp
    · rw [hcap, huv, List.filterMap_append, List.filterMap_cons, hgt, hcap_u, hcap_v]
      simp

/-- C1 witness: the differ counts at the concrete opening position (white
pawn e2→e4, black pawn unchanged on e7): the hypotheses of
`C1_differ_single_change` hold there. -/
theorem C1_differ_single_change_witness :
    (∀ t2, boardLookup Fix.afterMoveBoard Fix.occE2.piece.actorId = some t2 →
      (t2.file ≠ Fix.occE2.file ∨ t2.rank ≠ Fix.occE2.rank) →
      (animateActorMovements Fix.beforeBoard Fix.afterMoveBoard).1.length = 1 ∧
      (animateActorMovements Fix.beforeBoard Fix.afterMoveBoard).2.length = 0) ∧
    (boardLookup Fix.afterMoveBoard Fix.occE2.piece.actorId = none →
      (animateActorMovements Fix.beforeBoard Fix.afterMoveBoard).1.length = 0 ∧
      (animateActorMovements Fix.beforeBoard Fix.afterMoveBoard).2.length = 1) :=
  C1_differ_single_change Fix.beforeBoard Fix.afterMoveBoard Fix.occE2
    (by decide) (by decide) (by decide)

theorem showValidMoves_passive (ms : List (Option ValidMove)) :
    ((App.showValidMoves ms).all passiveEffect) = true := by
  unfold App.showValidMoves
  rw [List.all_eq_true]
  intro e he
  rcases List.mem_flatMap.mp he with ⟨m, _, he2⟩
  cases m with
  | none => simp at he2
  | some mv =>
    rcases List.mem_map.mp he2 with ⟨sq, _, hsq⟩
    rw [← hsq]
    rfl

theorem showMoveMarkers_passive (s : AppState) (actor : Option Nat) :
    ((App.showMoveMarkers s actor).all passiveEffect) = true := by
  unfold App.showMoveMarkers
  rw [List.all_cons, showValidMoves_passive]
  rfl

theorem dragShowMoveMarkers_passive (st : Status) (actor : Option Nat) :
    ((Drag.showMoveMarkers st actor).all passiveEffect) = true := by
  unfold Drag.showMoveMarkers
  rw [List.all_cons]
  rw [showValidMoves_passive]
  rfl

/-- C10: hover-enter and hover-exit never mutate the canonical game state or
the selection: in both the click variant and the drag variant the handlers
return the state unchanged and every effect they emit is a marker position
change or a hover scale animation. -/
theorem C10_hover_passive (s : AppState) (st : Status) (a : Nat) :
    (App.startHoverPiece s a).state = s ∧
    (App.stopHoverPiece s a).state = s ∧
    (App.startHoverPiece s a).thrown = none ∧
    (App.stopHoverPiece s a).thrown = none ∧
    ((App.startHoverPiece s a).trace.all passiveEffect) = true ∧
    ((App.stopHoverPiece s a).trace.all passiveEffect) = true ∧
    (Drag.startHoverPiece st a).1 = st ∧
    (Drag.stopHoverPiece st a).1 = st ∧
    ((Drag.startHoverPiece st a).2.all passiveEffect) = true ∧
    ((Drag.stopHoverPiece st a).2.all passiveEffect) = true := by
  refine ⟨rfl, rfl, rfl, rfl, ?_, ?_, rfl, rfl, ?_, ?_⟩
  · unfold App.startHoverPiece
    rw [List.all_append]
    rw [showMoveMarkers_passive]
    by_cases h : (s.selectedActor == some a) = true
    · simp [h]
    · simp [h, passiveEffect]
  · unfold App.stopHoverPiece
    rw [List.all_append]
    rw [showMoveMarkers_passive]
    by_cases h : (s.selectedActor == some a) = true
    · simp [h]
    · simp [h, passiveEffect]
  · exact dragShowMoveMarkers_passive st (some a)
  · exact dragShowMoveMarkers_passive st none

/-- C8: clicking a selectable piece twice in succession (no other events in
between) returns the selection to Idle: whenever the first click leaves the
piece selected, the second click on the same piece clears the selection and
hides the selected marker and all move markers. -/
theorem clickOnPiece_of_selected (s2 : AppState) (p : Nat)
    (h : s2.selectedActor = some p) :
    App.clickOnPiece s2 p = App.deselectPiece s2 := by
  unfold App.clickOnPiece
  rw [h]
  simp

theorem C8_toggle_deselect (s : AppState) (p : Nat)
    (h1 : (App.clickOnPiece s p).state.selectedActor = some p) :
    (App.clickOnPiece (App.clickOnPiece s p).state p).state.selectedActor = none ∧
    Effect.hideSelectedMarker ∈ (App.clickOnPiece (App.clickOnPiece s p).state p).trace ∧
    Effect.hideMoveMarkers ∈ (App.clickOnPiece (App.clickOnPiece s p).state p).trace ∧
    Effect.clearSelection ∈ (App.clickOnPiece (App.clickOnPiece s p).state p).trace := by
  rw [clickOnPiece_of_selected _ p h1]
  unfold App.deselectPiece
  rw [h1]
  refine ⟨rfl, ?_, ?_, ?_⟩ <;> simp

/-- C8 witness: from the idle fixture, clicking the black pawn selects it, so
the toggle theorem applies there. -/
theorem C8_toggle_deselect_witness :
    (App.clickOnPiece (App.clickOnPiece Fix.stIdle 2).state 2).state.selectedActor = none ∧
    Effect.hideSelectedMarker ∈ (App.clickOnPiece (App.clickOnPiece Fix.stIdle 2).state 2).trace ∧
    Effect.hideMoveMarkers ∈ (App.clickOnPiece (App.clickOnPiece Fix.stIdle 2).state 2).trace ∧
    Effect.clearSelection ∈ (App.clickOnPiece (App.clickOnPiece Fix.stIdle 2).state 2).trace :=
  C8_toggle_deselect Fix.stIdle 2 (by decide)

/-- C5 (code bug): `clickOnPiece` never consults `validMoves` before
selecting: from the idle fixture, in which the black pawn (actor 2) has no
`validMoves` entry, clicking it still sets it as the selection. -/
theorem C5_select_without_moves :
    App.validMovesForActor Fix.stIdle (some 2) = none ∧
    (App.clickOnPiece Fix.stIdle 2).state.selectedActor = some 2 ∧
    (App.clickOnPiece Fix.stIdle 2).thrown = none := by
  decide

/-- C7: on a confirmed move (selection present, `validMoves` entry found,
clicked square among its destinations, engine accepts), the handler's effect
trace is exactly: hide move markers, hide check marker, invoke the engine
move, refetch the status, dispatch the animations of the before/after
occupied-board diff, hide the selected marker, and only then clear the
selection; afterwards the selection is empty. -/
theorem C7_confirmed_move_order (s : AppState) (actor : SquareActor)
    (selId : Nat) (move : ValidMove) (destSquare : Square) (newStatus : Status)
    (hsel : s.selectedActor = some selId)
    (hmv : s.game.status.validMoves.find?
      (fun item => App.srcPieceActorId item == some selId) = some move)
    (hds : move.squares.find?
      (fun item => item.file == actor.file && item.rank == actor.rank) = some destSquare)
    (hok : s.game.moveFn ⟨move.src.file, move.src.rank⟩ ⟨destSquare.file, destSquare.rank⟩
      = Except.ok newStatus) :
    App.clickOnSquare s actor =
      { state := { game := { status := newStatus, moveFn := s.game.moveFn }
                   selectedActor := none }
        trace := [Effect.hideMoveMarkers, Effect.hideCheckMarker,
                  Effect.gameMove ⟨move.src.file, move.src.rank⟩
                    ⟨destSquare.file, destSquare.rank⟩,
                  Effect.refetchStatus]
                 ++ App.dispatchAnimations
                      (animateActorMovements (readOccupiedBoard s.game.status)
                        (readOccupiedBoard newStatus))
                 ++ [Effect.hideSelectedMarker, Effect.clearSelection]
        thrown := none } := by
  unfold App.clickOnSquare
  rw [hsel]
  simp only [hmv, hds, hok]

/-- C7 witness: the confirmed-move hypotheses hold at the concrete opening
fixture (white pawn selected, e4 clicked, engine accepts e2→e4). -/
theorem C7_confirmed_move_order_witness :
    App.clickOnSquare Fix.stMove Fix.sqE4Actor =
      { state := { game := { status := Fix.statusMove1, moveFn := Fix.stMove.game.moveFn }
                   selectedActor := none }
        trace := [Effect.hideMoveMarkers, Effect.hideCheckMarker,
                  Effect.gameMove ⟨(Fix.mkSq "e" 2 (some Fix.wPawn)).file, (Fix.mkSq "e" 2 (some Fix.wPawn)).rank⟩
                    ⟨(Fix.mkSq "e" 4 none).file, (Fix.mkSq "e" 4 none).rank⟩,
                  Effect.refetchStatus]
                 ++ App.dispatchAnimations
                      (animateActorMovements (readOccupiedBoard Fix.stMove.game.status)
                        (readOccupiedBoard Fix.statusMove1))
                 ++ [Effect.hideSelectedMarker, Effect.clearSelection]
        thrown := none } :=
  C7_confirmed_move_order Fix.stMove Fix.sqE4Actor 1
    ⟨Fix.mkSq "e" 2 (some Fix.wPawn), [Fix.mkSq "e" 4 none]⟩
    (Fix.mkSq "e" 4 none) Fix.statusMove1 rfl (by decide) (by decide) rfl

/-- C3: a move is submitted to the rules engine iff the clicked square
appears in the `validMoves` entry of the currently selected piece in the
status fetched at handler entry; otherwise the click leaves the game state
untouched and dispatches no engine call and no move/capture animation. -/
theorem C3_legality_gating (s : AppState) (actor : SquareActor) :
    ((∃ src dst, Effect.gameMove src dst ∈ (App.clickOnSquare s actor).trace) ↔
      legalDestinationSpec s actor = true) ∧
    (legalDestinationSpec s actor = false →
      (App.clickOnSquare s actor).state.game = s.game ∧
      ((App.clickOnSquare s actor).trace.all fun e => !(moveOrAnimEffect e)) = true) := by
  rcases hsel : s.selectedActor with _ | selId
  · simp [App.clickOnSquare, legalDestinationSpec, hsel]
  · rcases hmv : s.game.status.validMoves.find?
        (fun item => App.srcPieceActorId item == some selId) with _ | move
    · simp [App.clickOnSquare, App.deselectPiece, legalDestinationSpec, hsel, hmv,
        moveOrAnimEffect]
    · rcases hds : move.squares.find?
          (fun item => item.file == actor.file && item.rank == actor.rank) with _ | destSquare
      · have hany : (move.squares.any fun item =>
            item.file == actor.file && item.rank == actor.rank) = false := by
          rw [List.any_eq_false]
          intro x hx
          simpa using List.find?_eq_none.mp hds x hx
        simp [App.clickOnSquare, App.deselectPiece, legalDestinationSpec, hsel, hmv, hds,
          hany, moveOrAnimEffect]
      · have hany : (move.squares.any fun item =>
            item.file == actor.file && item.rank == actor.rank) = true := by
          rw [List.any_eq_true]
          exact ⟨destSquare, List.mem_of_find?_eq_some hds,
            by simpa using List.find?_some hds⟩
        rcases hmf : s.game.moveFn ⟨move.src.file, move.src.rank⟩
            ⟨destSquare.file, destSquare.rank⟩ with e | newStatus
        · simp [App.clickOnSquare, legalDestinationSpec, hsel, hmv, hds, hany, hmf]
        · simp only [App.clickOnSquare, legalDestinationSpec, hsel, hmv, hds, hany, hmf]
          constructor
          · simp only [List.mem_cons, List.mem_append]
            constructor
            · intro _
              trivial
            · intro _
              exact ⟨⟨move.src.file, move.src.rank⟩, ⟨destSquare.file, destSquare.rank⟩,
                by simp⟩
          · intro hcontra
            exact absurd hcontra (by simp)

/-- C3 witness: the legality-gating equivalence instantiated at the concrete
opening fixture. -/
theorem C3_legality_gating_witness :
    ((∃ src dst, Effect.gameMove src dst ∈ (App.clickOnSquare Fix.stMove Fix.sqE4Actor).trace) ↔
      legalDestinationSpec Fix.stMove Fix.sqE4Actor = true) ∧
    (legalDestinationSpec Fix.stMove Fix.sqE4Actor = false →
      (App.clickOnSquare Fix.stMove Fix.sqE4Actor).state.game = Fix.stMove.game ∧
      ((App.clickOnSquare Fix.stMove Fix.sqE4Actor).trace.all
        fun e => !(moveOrAnimEffect e)) = true) :=
  C3_legality_gating Fix.stMove Fix.sqE4Actor

/-- C4 (corrected, amended): the handler has no try/catch, so a synchronous
throw from `game.move` escapes `clickOnSquare`; when it does, the move had
been validated against `validMoves` beforehand, the state (selection and
status) is left exactly as it was, and the trace holds only the two
marker-hiding calls and the engine call — no animation, no status refetch,
no selection clearing. -/
theorem C4_amended_throw_escape (s : AppState) (actor : SquareActor) (e : String)
    (h : (App.clickOnSquare s actor).thrown = some e) :
    (App.clickOnSquare s actor).state = s ∧
    ∃ selId move destSquare,
      s.selectedActor = some selId ∧
      s.game.status.validMoves.find?
        (fun item => App.srcPieceActorId item == some selId) = some move ∧
      move.squares.find?
        (fun item => item.file == actor.file && item.rank == actor.rank) = some destSquare ∧
      s.game.moveFn ⟨move.src.file, move.src.rank⟩ ⟨destSquare.file, destSquare.rank⟩
        = Except.error e ∧
      (App.clickOnSquare s actor).trace =
        [Effect.hideMoveMarkers, Effect.hideCheckMarker,
         Effect.gameMove ⟨move.src.file, move.src.rank⟩
           ⟨destSquare.file, destSquare.rank⟩] := by
  rcases hsel : s.selectedActor with _ | selId
  · simp [App.clickOnSquare, hsel] at h
  · rcases hmv : s.game.status.validMoves.find?
        (fun item => App.srcPieceActorId item == some selId) with _ | move
    · simp [App.clickOnSquare, App.deselectPiece, hsel, hmv] at h
    · rcases hds : move.squares.find?
          (fun item => item.file == actor.file && item.rank == actor.rank) with _ | destSquare
      · simp [App.clickOnSquare, App.deselectPiece, hsel, hmv, hds] at h
      · rcases hmf : s.game.moveFn ⟨move.src.file, move.src.rank⟩
            ⟨destSquare.file, destSquare.rank⟩ with e2 | newStatus
        · have he : e2 = e := by
            simpa [App.clickOnSquare, hsel, hmv, hds, hmf] using h
          subst he
          refine ⟨?_, selId, move, destSquare, rfl, hmv, hds, hmf, ?_⟩
          · simp [App.clickOnSquare, hsel, hmv, hds, hmf]
          · simp [App.clickOnSquare, hsel, hmv, hds, hmf]
        · simp [App.clickOnSquare, hsel, hmv, hds, hmf] at h

/-- C4 witness: the amended theorem applied at the faulting-engine fixture. -/
theorem C4_amended_throw_escape_witness :
    (App.clickOnSquare Fix.stFault Fix.sqE4Actor).state = Fix.stFault ∧
    ∃ selId move destSquare,
      Fix.stFault.selectedActor = some selId ∧
      Fix.stFault.game.status.validMoves.find?
        (fun item => App.srcPieceActorId item == some selId) = some move ∧
      move.squares.find?
        (fun item => item.file == Fix.sqE4Actor.file && item.rank == Fix.sqE4Actor.rank)
        = some destSquare ∧
      Fix.stFault.game.moveFn ⟨move.src.file, move.src.rank⟩
        ⟨destSquare.file, destSquare.rank⟩ = Except.error "engine fault" ∧
      (App.clickOnSquare Fix.stFault Fix.sqE4Actor).trace =
        [Effect.hideMoveMarkers, Effect.hideCheckMarker,
         Effect.gameMove ⟨move.src.file, move.src.rank⟩
           ⟨destSquare.file, destSquare.rank⟩] :=
  C4_amended_throw_escape Fix.stFault Fix.sqE4Actor "engine fault" (by decide)

/-- C4 counterexample: at the faulting-engine fixture the engine's throw is
not caught — `clickOnSquare` ends with the exception escaping (`thrown` is
populated) even though `game.move` was invoked, refuting "no exception raised
by game.move escapes the click handler". -/
theorem C4_counterexample :
    (App.clickOnSquare Fix.stFault Fix.sqE4Actor).thrown = some "engine fault" ∧
    Effect.gameMove ⟨"e", 2⟩ ⟨"e", 4⟩ ∈ (App.clickOnSquare Fix.stFault Fix.sqE4Actor).trace := by
  decide

/-- C6 (corrected, amended): in the first click variant, a click on another
piece whose square is a valid destination of the current selection is piped
to the square-click path: the rules engine's move is invoked and the clicked
piece does not become the new selection. -/
theorem C6_amended_destination_priority (s : AppState) (selId pId : Nat) (sq : Square)
    (hsel : s.selectedActor = some selId)
    (hne : pId ≠ selId)
    (hvt : App.isValidTarget s s.selectedActor pId = true)
    (hsq : App.squareForActor s pId = some sq)
    (hfile : sq.actor.file = sq.file) (hrank : sq.actor.rank = sq.rank) :
    (∃ src dst, Effect.gameMove src dst ∈ (App.clickOnPiece s pId).trace) ∧
    (App.clickOnPiece s pId).state.selectedActor ≠ some pId := by
  have hb : (s.selectedActor == some pId) = false := by
    rw [hsel]
    rw [beq_eq_false_iff_ne]
    intro hcontra
    exact hne (Option.some.inj hcontra).symm
  have hstep : App.clickOnPiece s pId = App.clickOnSquare s sq.actor := by
    unfold App.clickOnPiece
    simp [hb, hvt, hsq]
  rw [hstep]
  rcases hvm : App.validMovesForActor s (some selId) with _ | vm
  · have hvtB := hvt
    simp only [App.isValidTarget, hsel, hsq, hvm] at hvtB
    exact absurd hvtB (by simp)
  · have hvtB := hvt
    simp only [App.isValidTarget, hsel, hsq, hvm] at hvtB
    have hfind : s.game.status.validMoves.find?
        (fun item => App.srcPieceActorId item == some selId) = some vm := by
      have h2 := hvm
      simp only [App.validMovesForActor] at h2
      exact h2
    have hvt2 : (vm.squares.any fun item =>
        item.file == sq.actor.file && item.rank == sq.actor.rank) = true := by
      simp only [hfile, hrank]
      exact hvtB
    obtain ⟨x, hx, hpx⟩ := List.any_eq_true.mp hvt2
    have hsome : (vm.squares.find? (fun item =>
        item.file == sq.actor.file && item.rank == sq.actor.rank)).isSome = true := by
      rw [List.find?_isSome]
      exact ⟨x, hx, hpx⟩
    obtain ⟨destSquare, hds⟩ := Option.isSome_iff_exists.mp hsome
    unfold App.clickOnSquare
    rw [hsel]
    simp only [hfind, hds]
    rcases hmf : s.game.moveFn ⟨vm.src.file, vm.src.rank⟩
        ⟨destSquare.file, destSquare.rank⟩ with e2 | newStatus
    · constructor
      · exact ⟨⟨vm.src.file, vm.src.rank⟩, ⟨destSquare.file, destSquare.rank⟩, by simp⟩
      · rw [hsel]
        intro hcontra
        exact hne (Option.some.inj hcontra).symm
    · constructor
      · exact ⟨⟨vm.src.file, vm.src.rank⟩, ⟨destSquare.file, destSquare.rank⟩, by simp⟩
      · simp

/-- C6 witness: at the capture fixture (white pawn selected on e2, black pawn
on the valid destination d3), the destination-priority theorem applies. -/
theorem C6_amended_destination_priority_witness :
    (∃ src dst, Effect.gameMove src dst ∈ (App.clickOnPiece Fix.stCap 2).trace) ∧
    (App.clickOnPiece Fix.stCap 2).state.selectedActor ≠ some 2 :=
  C6_amended_destination_priority Fix.stCap 1 2 (Fix.mkSq "d" 3 (some Fix.bPawn))
    rfl (by decide) (by decide) (by decide) (by decide) (by decide)

/-- C6 counterexample: in the second click variant, the same click on a piece
standing on a valid destination of the selection does not execute any move —
`isValidTarget` never fires (its `squareForActor` compares against the
selected actor), so the clicked piece becomes the new selection and
`game.move` is never invoked, refuting destination-move priority there. -/
theorem C6_counterexample :
    App.isValidTarget Fix.stCap Fix.stCap.selectedActor 2 = true ∧
    (AppB.clickOnPiece Fix.stCap 2).state.selectedActor = some 2 ∧
    ((AppB.clickOnPiece Fix.stCap 2).trace.all fun e => !(isGameMoveEffect e)) = true ∧
    (AppB.clickOnPiece Fix.stCap 2).thrown = none := by
  decide

theorem destroy_not_mem_movementAnims (l : List Change) (a : Nat) :
    Effect.destroyActor a ∉ (l.flatMap fun c =>
      match c.newSquare with
      | some ns => App.animateMovement c.actorId ns
      | none => []) := by
  intro h
  rcases List.mem_flatMap.mp h with ⟨c, _, hmem⟩
  rcases hns : c.newSquare with _ | ns
  · rw [hns] at hmem
    simp at hmem
  · rw [hns] at hmem
    simp [App.animateMovement] at hmem

theorem destroy_mem_captureAnims (l : List Change) (a : Nat)
    (h : Effect.destroyActor a ∈ l.flatMap fun c => App.animateCapture c.actorId) :
    ∃ pre post, (l.flatMap fun c => App.animateCapture c.actorId) =
      pre ++ App.animateCapture a ++ post := by
  induction l with
  | nil => simp at h
  | cons c t ih =>
    rw [List.flatMap_cons] at h ⊢
    by_cases hca : c.actorId = a
    · subst hca
      exact ⟨[], t.flatMap fun c => App.animateCapture c.actorId, by simp⟩
    · have hm2 : Effect.destroyActor a ∈ t.flatMap fun c => App.animateCapture c.actorId := by
        rcases List.mem_append.mp h with h1 | h2
        · exfalso
          simp [App.animateCapture] at h1
          exact hca h1.symm
        · exact h2
      obtain ⟨pre, post, heq⟩ := ih hm2
      exact ⟨App.animateCapture c.actorId ++ pre, post, by rw [heq]; simp⟩

/-- C9: every `destroy` the click handler dispatches sits inside a capture
animation block: the scale-to-zero animation (1.0 s) is started first, then a
1000 ms delay is awaited, and only then is the entity destroyed — the actor
is never destroyed immediately. -/
theorem C9_capture_destroy_deferred (s : AppState) (actor : SquareActor) (a : Nat)
    (h : Effect.destroyActor a ∈ (App.clickOnSquare s actor).trace) :
    ∃ pre post, (App.clickOnSquare s actor).trace =
      pre ++ [Effect.scaleToZero a 1000, Effect.delayMs 1000, Effect.destroyActor a]
        ++ post := by
  rcases hsel : s.selectedActor with _ | selId
  · simp [App.clickOnSquare, hsel] at h
  · rcases hmv : s.game.status.validMoves.find?
        (fun item => App.srcPieceActorId item == some selId) with _ | move
    · simp [App.clickOnSquare, App.deselectPiece, hsel, hmv] at h
    · rcases hds : move.squares.find?
          (fun item => item.file == actor.file && item.rank == actor.rank) with _ | destSquare
      · simp [App.clickOnSquare, App.deselectPiece, hsel, hmv, hds] at h
      · rcases hmf : s.game.moveFn ⟨move.src.file, move.src.rank⟩
            ⟨destSquare.file, destSquare.rank⟩ with e2 | newStatus
        · simp [App.clickOnSquare, hsel, hmv, hds, hmf] at h
        · have htr : (App.clickOnSquare s actor).trace =
              [Effect.hideMoveMarkers, Effect.hideCheckMarker,
               Effect.gameMove ⟨move.src.file, move.src.rank⟩
                 ⟨destSquare.file, destSquare.rank⟩, Effect.refetchStatus]
              ++ App.dispatchAnimations
                   (animateActorMovements (readOccupiedBoard s.game.status)
                     (readOccupiedBoard newStatus))
              ++ [Effect.hideSelectedMarker, Effect.clearSelection] := by
            simp only [App.clickOnSquare, hsel, hmv, hds, hmf]
          rw [htr] at h ⊢
          have hd : Effect.destroyActor a ∈ App.dispatchAnimations
              (animateActorMovements (readOccupiedBoard s.game.status)
                (readOccupiedBoard newStatus)) := by
            rcases List.mem_append.mp h with h12 | h3
            · rcases List.mem_append.mp h12 with h1 | h2
              · simp at h1
              · exact h2
            · simp at h3
          unfold App.dispatchAnimations at hd
          rcases List.mem_append.mp hd with hmA | hmB
          · exact absurd hmA (destroy_not_mem_movementAnims _ a)
          · obtain ⟨pre, post, heq⟩ := destroy_mem_captureAnims _ a hmB
            refine ⟨[Effect.hideMoveMarkers, Effect.hideCheckMarker,
               Effect.gameMove ⟨move.src.file, move.src.rank⟩
                 ⟨destSquare.file, destSquare.rank⟩, Effect.refetchStatus]
              ++ ((animateActorMovements (readOccupiedBoard s.game.status)
                    (readOccupiedBoard newStatus)).1.flatMap fun c =>
                    match c.newSquare with
                    | some ns => App.animateMovement c.actorId ns
                    | none => [])
              ++ pre,
              post ++ [Effect.hideSelectedMarker, Effect.clearSelection], ?_⟩
            unfold App.dispatchAnimations
            rw [heq]
            simp [App.animateCapture, List.append_assoc]

/-- C9 witness: at the capture fixture, clicking d3 captures the black pawn
(actor 2), whose destroy is dispatched, so the deferred-destroy theorem
applies. -/
theorem C9_capture_destroy_deferred_witness :
    ∃ pre post, (App.clickOnSquare Fix.stCap Fix.sqD3Actor).trace =
      pre ++ [Effect.scaleToZero 2 1000, Effect.delayMs 1000, Effect.destroyActor 2]
        ++ post :=
  C9_capture_destroy_deferred Fix.stCap Fix.sqD3Actor 2 (by decide)
